/-
  Verification of the IconCreationPlugin build/export pipeline
  (src/maya/icon_creation) against its natural-language specification.

  The Python sources are shallowly embedded: pure fragments become Lean
  functions, effectful fragments become explicit state passing, and code
  that can raise becomes Except-valued.  External collaborators (the Maya
  command/API surface, the json stdlib module, os.path) are modelled at
  their documented interface boundary; each such model is flagged in the
  doc comment of the definition that uses it.
-/
import Mathlib

namespace IconCreation

/-! ## JSON value model

The plugin exchanges JSON at two points: the settings blob stored on the
Icon Template node (core.getIconSettings) and the validator output decode
(core.parseValidationOutput).  Both call json.loads, so we model JSON
values and a strict decoder for single documents. -/

/-- A decimal number kept exactly as mantissa times 10 to the exponent,
so that Python float literals in JSON are represented without rounding. -/
structure JNum where
  mant : Int
  exp : Int
deriving DecidableEq, Repr

/-- A JSON document as produced by json.loads: null, booleans, numbers,
strings, arrays and objects (objects keep their key/value pairs in parse
order; Python dict lookup semantics are applied at the use sites). -/
inductive Json where
  | null : Json
  | bool (b : Bool) : Json
  | num (n : JNum) : Json
  | str (s : String) : Json
  | arr (elems : List Json) : Json
  | obj (members : List (String × Json)) : Json

/-- The left brace character, written by code point to keep braces out of
string and character literals. -/
def lbrace : Char := Char.ofNat 123

/-- The right brace character, written by code point. -/
def rbrace : Char := Char.ofNat 125

/-- The double-quote character, written by code point. -/
def dquote : Char := Char.ofNat 34

/-- JSON insignificant whitespace, as accepted by Python json.loads. -/
def jsonWs (c : Char) : Bool :=
  c = ' ' || c = '\t' || c = '\n' || c = '\r'

/-- Drop leading JSON whitespace. -/
def dropWs (cs : List Char) : List Char := cs.dropWhile jsonWs

/-- Decimal digit test. -/
def isDig (c : Char) : Bool := '0' ≤ c && c ≤ '9'

/-- Split a character list into its leading run of digits and the rest. -/
def grabDigits : List Char → List Char × List Char
  | [] => ([], [])
  | c :: cs =>
    if isDig c then
      let (ds, rest) := grabDigits cs
      (c :: ds, rest)
    else ([], c :: cs)

/-- Numeric value of a digit run. -/
def digitsVal (ds : List Char) : Int :=
  ((ds.foldl (fun a c => a * 10 + (c.toNat - 48)) 0 : Nat) : Int)

/-- Value of one hex digit, if it is one. -/
def hexDigitVal (c : Char) : Option Nat :=
  if '0' ≤ c && c ≤ '9' then some (c.toNat - 48)
  else if 'a' ≤ c && c ≤ 'f' then some (c.toNat - 87)
  else if 'A' ≤ c && c ≤ 'F' then some (c.toNat - 55)
  else none

/-- Resolution of a single-character JSON string escape. -/
def escChar (c : Char) : Option Char :=
  if c = dquote then some dquote
  else if c = '\\' then some '\\'
  else if c = '/' then some '/'
  else if c = 'b' then some (Char.ofNat 8)
  else if c = 'f' then some (Char.ofNat 12)
  else if c = 'n' then some '\n'
  else if c = 'r' then some '\r'
  else if c = 't' then some '\t'
  else none

/-- Body of a JSON string literal, after its opening quote: collects
characters up to the closing quote, resolving escapes (including the
four-hex-digit unicode form). -/
def jsonStrBody (acc : List Char) : List Char → Except String (String × List Char)
  | [] => .error "unterminated string"
  | c :: cs =>
    if c = dquote then .ok (String.mk acc.reverse, cs)
    else if c = '\\' then
      match cs with
      | [] => .error "unterminated escape"
      | e :: cs2 =>
        if e = 'u' then
          match cs2 with
          | h1 :: h2 :: h3 :: h4 :: cs3 =>
            match hexDigitVal h1, hexDigitVal h2, hexDigitVal h3, hexDigitVal h4 with
            | some a, some b, some c3, some d =>
              jsonStrBody (Char.ofNat (((a * 16 + b) * 16 + c3) * 16 + d) :: acc) cs3
            | _, _, _, _ => .error "invalid unicode escape"
          | _ => .error "truncated unicode escape"
        else
          match escChar e with
          | some r => jsonStrBody (r :: acc) cs2
          | none => .error "invalid escape"
    else jsonStrBody (c :: acc) cs

/-- A JSON number, following the strict RFC grammar Python json uses:
optional minus, an integer part that is 0 or starts with a nonzero digit,
optional fraction, optional exponent. -/
def jsonNumber (cs : List Char) : Except String (JNum × List Char) :=
  let (neg, cs1) := match cs with
    | '-' :: r => (true, r)
    | _ => (false, cs)
  let (ip, cs2) := grabDigits cs1
  match ip with
  | [] => .error "expected digits"
  | d0 :: drest =>
    if d0 = '0' && !drest.isEmpty then .error "leading zero"
    else
      let (fp, cs3) := match cs2 with
        | '.' :: r =>
          let (ds, r2) := grabDigits r
          (ds, if ds.isEmpty then '.' :: r else r2)
        | _ => ([], cs2)
      if cs2 ≠ cs3 && fp.isEmpty then .error "expected fraction digits"
      else
        let (ev, cs4) : Int × List Char := match cs3 with
          | 'e' :: r | 'E' :: r =>
            let (sg, r1) : Int × List Char := match r with
              | '+' :: r2 => (1, r2)
              | '-' :: r2 => (-1, r2)
              | _ => (1, r)
            let (eds, r2) := grabDigits r1
            (sg * digitsVal eds, r2)
          | _ => (0, cs3)
        let m : Int := (if neg then -1 else 1) * digitsVal (ip ++ fp)
        .ok (⟨m, ev - (fp.length : Int)⟩, cs4)

/-- Parser mode: a value, the items of an array, or the members of an
object (with what has been accumulated so far). -/
inductive JMode where
  | value : JMode
  | items (acc : List Json) : JMode
  | members (acc : List (String × Json)) : JMode

/-- One strict JSON document parser, structurally recursive on fuel.  In
value mode it consumes one value; in items or members mode it consumes the
remaining comma-separated contents of an array or object including the
closing bracket.  Mirrors what Python json.loads accepts. -/
def jsonParse : Nat → JMode → List Char → Except String (Json × List Char)
  | 0, _, _ => .error "document too deep"
  | Nat.succ fuel, JMode.value, cs =>
    match dropWs cs with
    | 'n' :: 'u' :: 'l' :: 'l' :: r => .ok (.null, r)
    | 't' :: 'r' :: 'u' :: 'e' :: r => .ok (.bool true, r)
    | 'f' :: 'a' :: 'l' :: 's' :: 'e' :: r => .ok (.bool false, r)
    | c :: r =>
      if c = dquote then
        match jsonStrBody [] r with
        | .ok (s, r2) => .ok (.str s, r2)
        | .error e => .error e
      else if c = '[' then
        match dropWs r with
        | c2 :: r2 =>
          if c2 = ']' then .ok (.arr [], r2)
          else jsonParse fuel (JMode.items []) (c2 :: r2)
        | [] => .error "unterminated array"
      else if c = lbrace then
        match dropWs r with
        | c2 :: r2 =>
          if c2 = rbrace then .ok (.obj [], r2)
          else jsonParse fuel (JMode.members []) (c2 :: r2)
        | [] => .error "unterminated object"
      else if c = '-' || isDig c then
        match jsonNumber (c :: r) with
        | .ok (n, r2) => .ok (.num n, r2)
        | .error e => .error e
      else .error "unexpected character"
    | [] => .error "empty document"
  | Nat.succ fuel, JMode.items acc, cs =>
    match jsonParse fuel JMode.value cs with
    | .error e => .error e
    | .ok (v, r) =>
      match dropWs r with
      | ',' :: r2 => jsonParse fuel (JMode.items (acc ++ [v])) r2
      | c :: r2 =>
        if c = ']' then .ok (.arr (acc ++ [v]), r2)
        else .error "expected comma or close bracket"
      | [] => .error "unterminated array"
  | Nat.succ fuel, JMode.members acc, cs =>
    match dropWs cs with
    | c :: r =>
      if c = dquote then
        match jsonStrBody [] r with
        | .error e => .error e
        | .ok (k, r1) =>
          match dropWs r1 with
          | ':' :: r2 =>
            match jsonParse fuel JMode.value r2 with
            | .error e => .error e
            | .ok (v, r3) =>
              match dropWs r3 with
              | ',' :: r4 => jsonParse fuel (JMode.members (acc ++ [(k, v)])) r4
              | c2 :: r4 =>
                if c2 = rbrace then .ok (.obj (acc ++ [(k, v)]), r4)
                else .error "expected comma or close brace"
              | [] => .error "unterminated object"
          | _ => .error "expected colon"
      else .error "expected string key"
    | [] => .error "unterminated object"

/-- json.loads on a character list: parse exactly one document and demand
that only whitespace follows it. -/
def jsonLoadsChars (cs : List Char) : Except String Json :=
  match jsonParse (cs.length + 1) JMode.value cs with
  | .error e => .error e
  | .ok (v, rest) =>
    match dropWs rest with
    | [] => .ok v
    | _ => .error "extra data"

/-- json.loads on a string. -/
def jsonLoads (s : String) : Except String Json :=
  jsonLoadsChars s.toList

/-- Does this Except hold a success value? -/
def exceptOk {ε α : Type} : Except ε α → Bool
  | .ok _ => true
  | .error _ => false

/-! ## Validator output decoding (core.parseValidationOutput, lines 344-360)

The validator CLI's captured output is split into lines; each line is fed
to json.loads; any parsed document containing an errors key contributes
the elements of its errors value to the aggregate list. -/

/-- Python str.splitlines restricted to the newline character: every
newline terminates a line (empty interior lines are kept), and a final
segment after the last newline is kept only when it is nonempty. -/
def splitlinesAux (acc : List Char) : List Char → List (List Char)
  | [] => if acc.isEmpty then [] else [acc.reverse]
  | c :: cs =>
    if c = '\n' then acc.reverse :: splitlinesAux [] cs
    else splitlinesAux (c :: acc) cs

/-- str.splitlines of a string, as a list of character lines. -/
def splitlines (s : String) : List (List Char) := splitlinesAux [] s.toList

/-- Python dict lookup on a parsed object: when json.loads sees duplicate
keys the last pair wins, so lookup scans the members from the right. -/
def objLookup (members : List (String × Json)) (k : String) : Option Json :=
  (members.reverse.find? (fun kv => kv.1 = k)).map (fun kv => kv.2)

/-- Naive substring containment on character lists (used only to model
the Python membership test on strings). -/
def containsSub (hay pat : List Char) : Bool :=
  match hay with
  | [] => pat.isEmpty
  | _ :: t => pat.isPrefixOf hay || containsSub t pat

/-- Python membership test (key in jsonOutput) on a decoded document:
dicts test key membership, strings test substring containment, arrays
test element equality against the string; the scalar types are not
iterable and raise TypeError. -/
def pyContainsKey (k : String) : Json → Except String Bool
  | .obj ms => .ok ((objLookup ms k).isSome)
  | .str s => .ok (containsSub s.toList k.toList)
  | .arr es => .ok (es.any (fun e => match e with
      | .str s2 => s2 = k
      | _ => false))
  | _ => .error "TypeError: argument not iterable"

/-- Python list.extend on a decoded value: arrays contribute their
elements, strings their characters, dicts their keys; the scalar types
raise TypeError. -/
def pyExtend (acc : List Json) : Json → Except String (List Json)
  | .arr es => .ok (acc ++ es)
  | .str s => .ok (acc ++ s.toList.map (fun c => Json.str (String.mk [c])))
  | .obj ms => .ok (acc ++ ms.map (fun kv => Json.str kv.1))
  | _ => .error "TypeError: not iterable"

/-- One line of core.parseValidationOutput's loop body: decode the line,
and when the document contains an errors key extend the accumulator with
that value.  Any decode failure propagates. -/
def parseValidationLine (acc : List Json) (line : List Char) :
    Except String (List Json) :=
  match jsonLoadsChars line with
  | .error e => .error e
  | .ok j =>
    match pyContainsKey "errors" j with
    | .error e => .error e
    | .ok b =>
      if b then
        match j with
        | .obj ms =>
          match objLookup ms "errors" with
          | some v => pyExtend acc v
          | none => .ok acc
        | _ => .error "TypeError: string index"
      else .ok acc

/-- core.parseValidationOutput: fold the loop body over the lines of the
captured output, starting from the empty error list. -/
def parseValidationOutput (output : String) : Except String (List Json) :=
  (splitlines output).foldlM parseValidationLine []

/-! ## Settings store (core.getIconSettings, lines 98-118)

The settings blob is one string attribute on the Icon Template node.  The
Maya API surface is modelled at its boundary: constructing
MFnDependencyNode from the None returned by getIconTemplateNode when no
template exists raises ValueError (the API-2.0 incompatible-object
error), and asString on the attribute yields the stored string, or the
empty string when nothing was ever stored. -/

/-- Python exception classes distinguished by the handlers in core. -/
inductive PyErr where
  | valueError (msg : String) : PyErr
  | other (msg : String) : PyErr
deriving DecidableEq, Repr

/-- The scene as getIconSettings observes it: whether an Icon Template
node exists, and the raw string on its iconSettings attribute (none when
the attribute was never written; template nodes always carry the
attribute because importTemplate adds it at creation). -/
structure SceneState where
  templateExists : Bool
  iconSettingsRaw : Option String
deriving DecidableEq, Repr

/-- The raw settings string that plug.asString returns for a scene. -/
def rawSettingsOf (sc : SceneState) : String := sc.iconSettingsRaw.getD ""

/-- core.getIconSettings: settings starts empty; the try block builds the
dependency-node wrapper (ValueError when the template is missing) and
json.loads the raw string (ValueError when absent or unparsable); except
ValueError leaves the empty settings in place. -/
def getIconSettings (sc : SceneState) : Except PyErr Json :=
  let attempt : Except PyErr Json :=
    if sc.templateExists = false then
      .error (.valueError "object is incompatible with MFnDependencyNode constructor")
    else
      match jsonLoads (rawSettingsOf sc) with
      | .ok j => .ok j
      | .error e => .error (.valueError e)
  match attempt with
  | .ok j => .ok j
  | .error (.valueError _) => .ok (Json.obj [])
  | .error e => .error e

/-! ## Animation takes (core.bakeAnimation lines 570-617, utils.exportFBX
lines 390-424) -/

/-- One animation take as stored under the animationTakes settings key. -/
structure AnimationTake where
  name : String
  startFrame : Int
  endFrame : Int
deriving DecidableEq, Repr

/-- The default take substituted by bakeAnimation when the settings have
no animationTakes key (core.py line 578). -/
def defaultTake : AnimationTake := ⟨"idle", 1, 2⟩

/-- The take list bakeAnimation works from:
settingsData.get(animationTakes, [defaultTake]).  The input is none when
the key is absent from the persisted settings. -/
def bakeAnimationResolvedTakes (animationTakes : Option (List AnimationTake)) :
    List AnimationTake :=
  animationTakes.getD [defaultTake]

/-- The sequence of cmds.bakeResults invocations bakeAnimation performs,
each recorded as its time range argument: after the early return on an
empty take list, the loop issues one bake call per take over that take's
(startFrame, endFrame) (core.py lines 597-615). -/
def bakeAnimationPasses (animationTakes : Option (List AnimationTake)) :
    List (Int × Int) :=
  let takes := bakeAnimationResolvedTakes animationTakes
  if takes.isEmpty then []
  else takes.map (fun t => (t.startFrame, t.endFrame))

/-- Python min over a nonempty list, head plus tail. -/
def pyMin (x : Int) (xs : List Int) : Int := xs.foldl min x

/-- Python max over a nonempty list, head plus tail. -/
def pyMax (x : Int) (xs : List Int) : Int := xs.foldl max x

/-- The single FBX bake window utils.exportFBX configures: for a nonempty
take list, min of the startFrames to max of the endFrames (lines
391-404); for an empty list the fixed window 1 to 2 (lines 419-420). -/
def exportFBXWindow : List AnimationTake → Int × Int
  | [] => (1, 2)
  | t :: ts => (pyMin t.startFrame (ts.map (fun u => u.startFrame)),
                pyMax t.endFrame (ts.map (fun u => u.endFrame)))

/-! ## Clip data updates (core.updateClipData, lines 990-1046) -/

/-- The payload emitted by the animation clip widget: the clip name, its
enabled checkbox, and the spinbox frame values. -/
structure ClipPayload where
  name : String
  enabled : Bool
  startFrame : Int
  endFrame : Int
deriving DecidableEq, Repr

/-- The keys present in every payload dict built by the view layer. -/
def payloadKeys : List String := ["name", "enabled", "startFrame", "endFrame"]

/-- The existing-take update loop of updateClipData (lines 1039-1041):
for each key k of the stored take with value v, when k is also a payload
key the loop assigns animData[i][k] = v — that is, it writes the stored
value v back, not the payload value. -/
def updateExistingTake (t : AnimationTake) (_p : ClipPayload) : AnimationTake :=
  { name := if "name" ∈ payloadKeys then t.name else t.name,
    startFrame := if "startFrame" ∈ payloadKeys then t.startFrame else t.startFrame,
    endFrame := if "endFrame" ∈ payloadKeys then t.endFrame else t.endFrame }

/-- core.updateClipData on the stored take list: locate the first take
whose name matches the payload; absent and disabled means no change,
absent and enabled appends a new take from the payload, present and
disabled removes it, present and enabled runs the field-update loop on
it. -/
def updateClipData (animData : List AnimationTake) (p : ClipPayload) :
    List AnimationTake :=
  match animData.findIdx? (fun t => t.name = p.name) with
  | none =>
    if p.enabled = false then animData
    else animData ++ [⟨p.name, p.startFrame, p.endFrame⟩]
  | some i =>
    if p.enabled = false then animData.eraseIdx i
    else
      match animData.get? i with
      | some t => animData.set i (updateExistingTake t p)
      | none => animData

/-! ## Material resolution and the KMAT manifest
(core.getMaterialsForMesh lines 620-656, getMaterialsForMeshes lines
659-676, exportIconComponent lines 439-486)

Materials and textures are identified by their Maya node names, which are
unique in a scene; the shading-network queries are modelled as functions
of the scene. -/

/-- The fixed allow-list of supported material node types
(constants.VALID_MATERIAL_TYPES). -/
def VALID_MATERIAL_TYPES : List String := ["blinn", "lambert", "phong"]

/-- The shading state a component export reads: the component's meshes in
traversal order, each mesh's shading engines as the material lists they
connect (in connection order), every material's node type, the optional
file-texture node on each material's color input, the path stored on each
texture node (none models an unset attribute, which getAttr returns as
None), and each material's color attribute. -/
structure ShadingScene where
  meshes : List String
  meshEngineMaterials : String → List (List String)
  materialType : String → String
  materialTexture : String → Option String
  textureFilePath : String → Option String
  materialColor : String → ℚ × ℚ × ℚ

/-- core.getMaterialsForMesh: walk the mesh's shading engines; per
engine, first append the materials whose node type is outside the
allow-list to the unsupported list, then append to the result the
connected materials not in the unsupported list so far. -/
def getMaterialsForMesh (sc : ShadingScene) (mesh : String) :
    List String × List String :=
  (sc.meshEngineMaterials mesh).foldl
    (fun acc connected =>
      let unsupported := acc.2 ++
        connected.filter (fun m => sc.materialType m ∉ VALID_MATERIAL_TYPES)
      (acc.1 ++ connected.filter (fun m => m ∉ unsupported), unsupported))
    ([], [])

/-- core.getMaterialsForMeshes: concatenate the per-mesh supported and
unsupported material lists. -/
def getMaterialsForMeshes (sc : ShadingScene) (meshes : List String) :
    List String × List String :=
  meshes.foldl
    (fun acc mesh =>
      let r := getMaterialsForMesh sc mesh
      (acc.1 ++ r.1, acc.2 ++ r.2))
    ([], [])

/-- The materials = list(set(materials)) dedup step of
exportIconComponent (line 445): Python set membership is name equality,
so the distinct names survive; the iteration order of a set is
unspecified and only the underlying set matters downstream. -/
def dedupMaterials (mats : List String) : List String := mats.dedup

/-- os.path.basename for forward-slash paths: everything after the last
slash. -/
def pathBasename (p : String) : String :=
  match (p.toList.reverse.takeWhile (fun c => c ≠ '/')).reverse with
  | cs => String.mk cs

/-- One entry of the materials list in the KMAT manifest, after the
template fields have been formatted (utils.KMAT_MATERIAL_DEFINITION with
exportIconComponent lines 464-482): either an albedo path or a flat
color, plus the material name; shaderName and blendmode are fixed. -/
structure KmatEntry where
  albedo : Option String
  color : List ℚ
  name : String
deriving DecidableEq, Repr

/-- The manifest materials list exportIconComponent builds from the
deduplicated material list (lines 464-482): a material with a color
file-texture contributes an albedo entry built from the icon directory
basename, the component type and the texture file name — unless the
texture's stored path is falsy (unset or empty), in which case the loop
continues and the material contributes nothing; a material with no
texture contributes a flat-color entry with alpha 1. -/
def kmatMaterials (sc : ShadingScene) (iconDirBase componentType : String) :
    List String → List KmatEntry
  | [] => []
  | mat :: rest =>
    match sc.materialTexture mat with
    | some tex =>
      match sc.textureFilePath tex with
      | none => kmatMaterials sc iconDirBase componentType rest
      | some p =>
        if p = "" then kmatMaterials sc iconDirBase componentType rest
        else
          { albedo := some (iconDirBase ++ "/" ++ componentType
              ++ "/" ++ pathBasename p),
            color := [1, 1, 1, 1],
            name := mat } :: kmatMaterials sc iconDirBase componentType rest
    | none =>
      let c := sc.materialColor mat
      { albedo := none, color := [c.1, c.2.1, c.2.2, 1], name := mat }
        :: kmatMaterials sc iconDirBase componentType rest

/-- The manifest materials list a component export writes: supported
materials accumulated over the component's meshes, deduplicated, then
run through the KMAT entry loop. -/
def exportIconComponentManifest (sc : ShadingScene)
    (iconDirBase componentType : String) : List KmatEntry :=
  kmatMaterials sc iconDirBase componentType
    (dedupMaterials (getMaterialsForMeshes sc sc.meshes).1)

/-- The number of distinct supported materials the component's meshes
reference. -/
def distinctSupportedCount (sc : ShadingScene) : Nat :=
  (dedupMaterials (getMaterialsForMeshes sc sc.meshes).1).length

/-! ## Build orchestration (core.buildIcon lines 242-267, core.exportIcon
lines 363-394, core.validateIcon lines 287-341)

The effectful environment a build runs in is snapshotted into a record;
raising Python code is Except-valued.  os.path.abspath is modelled as
joining against the process working directory, so the abspath of any
string — the empty scene name included — is a nonempty absolute path. -/

/-- How the body of the `with utils.openTempScene(...)` block of
exportIcon runs: it completes, or it raises before the Model component's
export has returned, or it raises afterwards (during the Portal pass).
A body exception does not leave the with statement: openTempScene
(utils.py lines 261-266) wraps its yield in try/except Exception that
only logs, so the generator swallows the throw and the exception is
suppressed. -/
inductive ExportBodyOutcome where
  | completed : ExportBodyOutcome
  | raisedBeforeModelExport : ExportBodyOutcome
  | raisedAfterModelExport : ExportBodyOutcome
deriving DecidableEq, Repr

/-- The environment of one buildIcon run: the scene name the authoring
environment reports (empty when the scene was never saved), the working
directory (always nonempty, it is an absolute path), the outputPath
setting, whether the initial scene save raises, whether openTempScene's
setup before its yield raises (contextlib then raises at the with
statement), how the temp-scene body runs, whether the reopen of the
original scene in openTempScene's finally raises (that exception
propagates), the validator exit status, and the validator's captured
output. -/
structure BuildEnv where
  sceneName : String
  cwd : String
  outputPath : Option String
  saveRaises : Bool
  tempSceneSetupRaises : Bool
  exportBodyOutcome : ExportBodyOutcome
  sceneReopenRaises : Bool
  validatorExitZero : Bool
  validatorOutput : String

/-- os.path.abspath: an absolute input (leading slash) is returned as
is, anything else — the empty string included — is resolved against the
working directory, so the result is never empty. -/
def pyAbspath (cwd s : String) : String :=
  match s.toList with
  | [] => cwd
  | c :: _ => if c = '/' then s else cwd ++ "/" ++ s

/-- core.exportIcon: abspath the queried scene name and return False when
that is empty (dead in practice, since abspath never returns the empty
string for a nonempty cwd); save the scene; raise ValueError when
outputPath is unset; then run the temp-scene body under openTempScene.
A failure of openTempScene's setup or of the reopen in its finally
propagates.  An exception raised by the body itself is suppressed by the
context manager's except-around-yield, so exportIcon returns normally
with whatever `result` last held: False when the raise came before the
Model component's export returned, True when the Model pass had
completed (even though the Portal pass failed), and True when both
component exports completed. -/
def exportIcon (env : BuildEnv) : Except PyErr Bool :=
  let currentScenePath := pyAbspath env.cwd env.sceneName
  if currentScenePath = "" then .ok false
  else if env.saveRaises then .error (.other "save failed")
  else
    match env.outputPath with
    | none => .error (.valueError "outputPath is not set.")
    | some _ =>
      if env.tempSceneSetupRaises then
        .error (.other "generator did not yield")
      else if env.sceneReopenRaises then
        .error (.other "reopening the original scene failed")
      else
        match env.exportBodyOutcome with
        | .completed => .ok true
        | .raisedBeforeModelExport => .ok false
        | .raisedAfterModelExport => .ok true

/-- core.validateIcon: exit code zero from the validator CLI means True;
on CalledProcessError the captured output is decoded by
parseValidationOutput — a decode failure propagates out of validateIcon —
and the result is False. -/
def validateIcon (env : BuildEnv) : Except PyErr Bool :=
  if env.validatorExitZero then .ok true
  else
    match parseValidationOutput env.validatorOutput with
    | .ok _ => .ok false
    | .error e => .error (.valueError e)

/-- core.buildIcon: result starts False; the try block runs exportIcon
and, when validate is requested, overwrites the result with validateIcon
(cleanup only logs); any exception forces the result to False.  The
second component of the pair records whether the validator stage ran. -/
def buildIcon (env : BuildEnv) (validate _cleanup : Bool) : Bool × Bool :=
  match exportIcon env with
  | .error _ => (false, false)
  | .ok r =>
    if validate then
      match validateIcon env with
      | .error _ => (false, true)
      | .ok v => (v, true)
    else (r, false)

/-! ## Bundle assembly (core.createIconZip, lines 1068-1097) -/

/-- The extension allow-list of the zip walk (core.py line 1083). -/
def ZIP_EXTENSIONS : List String := [".kmat", ".fbx", ".png", ".jpg"]

/-- os.path.splitext's extension for a bare file name: the suffix from
the last dot, unless every character before that dot is itself a dot
(so dotfiles have no extension). -/
def splitextExt (fn : String) : String :=
  let cs := fn.toList
  match (cs.reverse.findIdx? (fun c => c = '.')).map
      (fun j => cs.length - 1 - j) with
  | none => ""
  | some i =>
    if (cs.take i).all (fun c => c = '.') then ""
    else String.mk (cs.drop i)

/-- One file os.walk yields, reduced to the two parts createIconZip
uses: its immediate parent directory name and its file name. -/
structure WalkFile where
  parentDir : String
  fileName : String
deriving DecidableEq, Repr

/-- The archive entry name the inner _writeZip assigns: the file's parent
directory name joined with its file name (os.path.join of a nonempty
head inserts one separator). -/
def zipEntryName (f : WalkFile) : String :=
  if f.parentDir = "" then f.fileName else f.parentDir ++ "/" ++ f.fileName

/-- core.createIconZip: walk the icon directory, keep exactly the files
whose splitext extension is in the allow-list, and write each under its
parent-directory-plus-name entry. -/
def createIconZipEntries (files : List WalkFile) : List String :=
  (files.filter (fun f => splitextExt f.fileName ∈ ZIP_EXTENSIONS)).map zipEntryName

/-! ## Transform baking (core.bakeTransforms, lines 539-567)

Rigid/affine transforms form a group under composition; the bake of one
node is stated over an arbitrary group so that the identities proved hold
for the actual 4x4 matrix transforms.  The Maya operations are modelled
at their boundary: reparenting preserves the child's world transform (its
new local transform is its world transform conjugated into the new
parent), and makeIdentity with apply freezes the node's local transform
to the identity. -/

/-- One transform node as bakeTransforms sees it: whether it is a joint,
whether it carries a mesh shape, the accumulated world transform of its
parent, its own local transform, and its children's local transforms. -/
structure BakeNode (G : Type) where
  isJoint : Bool
  hasMesh : Bool
  parentWorld : G
  localXf : G
  childLocals : List G
deriving DecidableEq, Repr

/-- World transform of a child given its parent's world transform. -/
def worldOf {G : Type} [Group G] (parentWorld l : G) : G := parentWorld * l

/-- Reparenting a node with world transform w under a parent with world
transform pw while preserving the world transform: the new local
transform (cmds.parent semantics). -/
def reparentLocal {G : Type} [Group G] (pw w : G) : G := pw⁻¹ * w

/-- The per-node body of bakeTransforms (lines 549-567): joints and
mesh-bearing transforms are skipped; otherwise the immediate children are
reparented to world (scene root, world transform 1, so their new locals
are their old world transforms), makeIdentity freezes the node's local
transform to 1, and the children are reparented back under the node. -/
def bakeTransformsNode {G : Type} [Group G] (n : BakeNode G) : BakeNode G :=
  if n.isJoint then n
  else if n.hasMesh then n
  else
    let nodeWorld := worldOf n.parentWorld n.localXf
    let detached := n.childLocals.map (fun cl => reparentLocal 1 (worldOf nodeWorld cl))
    let frozen : G := 1
    let newWorld := worldOf n.parentWorld frozen
    { n with localXf := frozen,
             childLocals := detached.map (fun w => reparentLocal newWorld (worldOf 1 w)) }

/-- The world transforms of a node's children. -/
def childWorlds {G : Type} [Group G] (n : BakeNode G) : List G :=
  n.childLocals.map (fun cl => worldOf (worldOf n.parentWorld n.localXf) cl)

/-! ## Per-take readiness check (view.AnimationWidget.check lines
436-455, view.AnimationClipWidget lines 469-475,
constants.ICON_ANIMATION_CLIPS lines 7-13) -/

/-- The fixed per-clip-name capacity table (constants.py): clip name with
its maximum frame count. -/
def ICON_ANIMATION_CLIPS : List (String × Int) :=
  [("idle", 2), ("hover", 600), ("activate", 90), ("menu", 600), ("loading", 300)]

/-- One animation clip row of the widget: its name, the enabled checkbox,
the current spinbox frames, and the capacity frozen at construction as
endFrame - startFrame + 1 of the constructor arguments, which the
AnimationWidget passes as clipOffset and clipOffset + duration - 1 — so
the capacity is the table duration for that clip name. -/
structure ClipState where
  clipName : String
  enabled : Bool
  startFrame : Int
  endFrame : Int
  maxClipSize : Int
deriving DecidableEq, Repr

/-- AnimationClipWidget construction for table row (name, duration) at
clipOffset: start at clipOffset, end at clipOffset + duration - 1,
capacity endFrame - startFrame + 1; clips start disabled. -/
def mkClipWidget (name : String) (clipOffset duration : Int) : ClipState :=
  { clipName := name, enabled := false, startFrame := clipOffset,
    endFrame := clipOffset + duration - 1,
    maxClipSize := (clipOffset + duration - 1) - clipOffset + 1 }

/-- The clipSize property of the widget: endFrame - startFrame + 1, the
frame span. -/
def clipSize (c : ClipState) : Int := c.endFrame - c.startFrame + 1

/-- The widget's over-capacity highlight (paintEvent): the title is
painted red exactly when clipSize exceeds maxClipSize. -/
def clipOverCapacityFlag (c : ClipState) : Bool := c.maxClipSize < clipSize c

/-- AnimationWidget.check: fold over the clip widgets with checked
starting False; a disabled clip leaves checked alone; an enabled clip
resets checked to True, clears it when endFrame - startFrame (without
the plus one) exceeds maxClipSize, and clears it when
checkTakeForAnimation — modelled by the keysOk oracle on the clip's
frames — reports missing boundary keys. -/
def animationWidgetCheck (keysOk : Int → Int → Bool) (clips : List ClipState) :
    Bool :=
  clips.foldl
    (fun checked c =>
      if c.enabled = false then checked
      else
        let afterEnable := true
        let afterRange :=
          if c.maxClipSize < c.endFrame - c.startFrame then false else afterEnable
        if keysOk c.startFrame c.endFrame = false then false else afterRange)
    false

/-! ## Derived notions used by the theorems -/

/-- The errors one decoded document contributes to the aggregate list:
the elements of its errors array, for an object carrying one. -/
def docErrors : Json → List Json
  | .obj ms =>
    match objLookup ms "errors" with
    | some (Json.arr es) => es
    | _ => []
  | _ => []

/-- A decoded validator line on the decoder's success path: an object
whose errors value, when present, is an array. -/
def wellFormedDoc : Json → Prop
  | .obj ms => ∀ v, objLookup ms "errors" = some v → ∃ es, v = Json.arr es
  | _ => False

/-! ## Theorems -/

/-- Helper: a line that the loop decodes and finds well formed extends
the accumulator with exactly that document's errors elements. -/
theorem parseValidationLine_ok (acc : List Json) (l : List Char) (j : Json)
    (hl : jsonLoadsChars l = .ok j) (hwf : wellFormedDoc j) :
    parseValidationLine acc l = .ok (acc ++ docErrors j) := by
  unfold parseValidationLine
  rw [hl]
  cases j with
  | obj ms =>
    simp only [pyContainsKey]
    cases ho : objLookup ms "errors" with
    | none => simp [ho, docErrors]
    | some v =>
      obtain ⟨es, rfl⟩ := hwf v ho
      simp [ho, docErrors, pyExtend]
  | null => exact hwf.elim
  | bool b => exact hwf.elim
  | num n => exact hwf.elim
  | str s => exact hwf.elim
  | arr es => exact hwf.elim

/-- Helper: over lines that all decode to well-formed documents, the
fold returns the accumulator extended by every document's errors. -/
theorem parseValidationFold_ok (lines : List (List Char)) (docs : List Json)
    (hdec : List.Forall₂ (fun l j => jsonLoadsChars l = .ok j) lines docs)
    (hwf : ∀ j ∈ docs, wellFormedDoc j) :
    ∀ acc, lines.foldlM parseValidationLine acc = .ok (acc ++ docs.flatMap docErrors) := by
  induction hdec with
  | nil =>
    intro acc
    simp only [List.flatMap_nil, List.append_nil]
    rfl
  | @cons l j ls js h _ ih =>
    intro acc
    have hj : wellFormedDoc j := hwf j (by simp)
    have step := parseValidationLine_ok acc l j h hj
    have ihs : ∀ a, ls.foldlM parseValidationLine a = .ok (a ++ js.flatMap docErrors) :=
      ih (fun d hd => hwf d (by simp [hd]))
    calc (l :: ls).foldlM parseValidationLine acc
        = parseValidationLine acc l >>= fun a => ls.foldlM parseValidationLine a := rfl
      _ = .ok (acc ++ (j :: js).flatMap docErrors) := by
          rw [step]
          show ls.foldlM parseValidationLine (acc ++ docErrors j) = _
          rw [ihs (acc ++ docErrors j)]
          simp [List.flatMap_cons]

/-- Helper: if any line of the fold fails to decode, the fold fails. -/
theorem parseValidationFold_error (lines : List (List Char)) (line : List Char)
    (hmem : line ∈ lines) (hbad : exceptOk (jsonLoadsChars line) = false) :
    ∀ acc, exceptOk (lines.foldlM parseValidationLine acc) = false := by
  induction lines with
  | nil => cases hmem
  | cons l ls ih =>
    intro acc
    have hstep : (l :: ls).foldlM parseValidationLine acc
        = parseValidationLine acc l >>= fun a => ls.foldlM parseValidationLine a := rfl
    rcases List.mem_cons.mp hmem with h | h
    · subst h
      cases hj : jsonLoadsChars line with
      | ok v => rw [hj] at hbad; simp [exceptOk] at hbad
      | error e =>
        have : parseValidationLine acc line = .error e := by
          unfold parseValidationLine; rw [hj]
        rw [hstep, this]
        rfl
    · cases hp : parseValidationLine acc l with
      | error e => rw [hstep, hp]; rfl
      | ok a =>
        rw [hstep, hp]
        exact ih h a

/-- C2: parseValidationOutput splits the captured output into lines,
json.loads each line, and concatenates the elements of every errors
array across the decoded documents; a line that fails to decode fails
the whole decode (the failure propagates rather than being skipped); and
the single-line sample output decodes to a one-element error list whose
element has code E1. -/
theorem parseValidationOutput_spec :
    parseValidationOutput
        "\x7b\"errors\":[\x7b\"code\":\"E1\",\"message\":\"bad uv\"\x7d]\x7d\n"
      = .ok [Json.obj [("code", Json.str "E1"), ("message", Json.str "bad uv")]] ∧
    (∀ output docs,
      List.Forall₂ (fun l j => jsonLoadsChars l = .ok j) (splitlines output) docs →
      (∀ j ∈ docs, wellFormedDoc j) →
      parseValidationOutput output = .ok (docs.flatMap docErrors)) ∧
    (∀ output line, line ∈ splitlines output →
      exceptOk (jsonLoadsChars line) = false →
      exceptOk (parseValidationOutput output) = false) := by
  refine ⟨rfl, ?_, ?_⟩
  · intro output docs hdec hwf
    unfold parseValidationOutput
    simpa using parseValidationFold_ok (splitlines output) docs hdec hwf []
  · intro output line hmem hbad
    unfold parseValidationOutput
    exact parseValidationFold_error (splitlines output) line hmem hbad []

/-- C2 witness: the general parts applied at a concrete output. -/
theorem parseValidationOutput_spec_witness :
    exceptOk (parseValidationOutput "this is not json\n") = false :=
  parseValidationOutput_spec.2.2 "this is not json\n" ("this is not json".toList)
    (by decide) (by decide)

/-- C7: reading the build settings when the Icon Template node is
missing, the stored settings string is absent, or the stored string is
unparsable yields empty settings, and for every scene state the read
returns a value rather than raising. -/
theorem getIconSettings_spec (sc : SceneState) :
    (∃ j, getIconSettings sc = .ok j) ∧
    ((sc.templateExists = false ∨ exceptOk (jsonLoads (rawSettingsOf sc)) = false) →
      getIconSettings sc = .ok (Json.obj [])) := by
  constructor
  · cases ht : sc.templateExists with
    | false => exact ⟨Json.obj [], by simp [getIconSettings, ht]⟩
    | true =>
      cases hj : jsonLoads (rawSettingsOf sc) with
      | ok j => exact ⟨j, by simp [getIconSettings, ht, hj]⟩
      | error e => exact ⟨Json.obj [], by simp [getIconSettings, ht, hj]⟩
  · intro h
    cases ht : sc.templateExists with
    | false => simp [getIconSettings, ht]
    | true =>
      cases hj : jsonLoads (rawSettingsOf sc) with
      | ok j =>
        rcases h with h | h
        · rw [ht] at h; cases h
        · rw [hj] at h; simp [exceptOk] at h
      | error e => simp [getIconSettings, ht, hj]

/-- C7 witness: a scene with no Icon Template node reads as empty
settings. -/
theorem getIconSettings_spec_witness :
    getIconSettings ⟨false, none⟩ = .ok (Json.obj []) :=
  (getIconSettings_spec ⟨false, none⟩).2 (Or.inl rfl)

/-- C10: with no animationTakes key in the persisted settings,
bakeAnimation substitutes the default idle take over frames 1 to 2 and
bakes it; only a present-but-empty take list makes it return without
issuing any bake call. -/
theorem bakeAnimation_default_spec :
    bakeAnimationResolvedTakes none = [⟨"idle", 1, 2⟩] ∧
    bakeAnimationPasses none = [(1, 2)] ∧
    bakeAnimationPasses (some []) = [] :=
  ⟨rfl, rfl, rfl⟩

/-- Helper: a left fold of min is at most its initial value. -/
theorem foldl_min_le_init (x : Int) (xs : List Int) : xs.foldl min x ≤ x := by
  induction xs generalizing x with
  | nil => exact le_refl x
  | cons a as ih =>
    exact le_trans (ih (min x a)) (min_le_left x a)

/-- Helper: a left fold of min is at most every list element. -/
theorem foldl_min_le_mem (x y : Int) (xs : List Int) (h : y ∈ xs) :
    xs.foldl min x ≤ y := by
  induction xs generalizing x with
  | nil => cases h
  | cons a as ih =>
    rcases List.mem_cons.mp h with rfl | h2
    · exact le_trans (foldl_min_le_init (min x y) as) (min_le_right x y)
    · exact ih (min x a) h2

/-- Helper: a left fold of max is at least its initial value. -/
theorem init_le_foldl_max (x : Int) (xs : List Int) : x ≤ xs.foldl max x := by
  induction xs generalizing x with
  | nil => exact le_refl x
  | cons a as ih =>
    exact le_trans (le_max_left x a) (ih (max x a))

/-- Helper: a left fold of max is at least every list element. -/
theorem mem_le_foldl_max (x y : Int) (xs : List Int) (h : y ∈ xs) :
    y ≤ xs.foldl max x := by
  induction xs generalizing x with
  | nil => cases h
  | cons a as ih =>
    rcases List.mem_cons.mp h with rfl | h2
    · exact le_trans (le_max_right x y) (init_le_foldl_max (max x y) as)
    · exact ih (max x a) h2

/-- A two-take list used to exhibit the per-take baking behavior. -/
def demoTakes : List AnimationTake := [⟨"idle", 1, 10⟩, ⟨"hover", 20, 30⟩]

/-- C1 counterexample: with the two enabled takes idle 1-10 and hover
20-30, bakeAnimation issues two bakeResults passes, one per take over
that take's own range — not the single pass over the union window
(1, 30) that the claim states (the union window is computed only later,
by the FBX export settings). -/
theorem bakeAnimation_counterexample :
    bakeAnimationPasses (some demoTakes) = [(1, 10), (20, 30)] ∧
    exportFBXWindow demoTakes = (1, 30) ∧
    bakeAnimationPasses (some demoTakes) ≠ [(1, 30)] := by
  refine ⟨by decide, by decide, by decide⟩

/-- C1 amended: for every nonempty enabled take list, bakeAnimation
performs one bakeResults pass per take, each over that take's own
(startFrame, endFrame); the single union window — min of the
startFrames to max of the endFrames — is computed by the FBX export
settings, and that window contains every enabled take's range as a
subset. -/
theorem bakeAnimation_per_take_and_union (takes : List AnimationTake)
    (h : takes ≠ []) :
    bakeAnimationPasses (some takes)
        = takes.map (fun t => (t.startFrame, t.endFrame)) ∧
    ∀ t ∈ takes, (exportFBXWindow takes).1 ≤ t.startFrame ∧
      t.endFrame ≤ (exportFBXWindow takes).2 := by
  constructor
  · unfold bakeAnimationPasses bakeAnimationResolvedTakes
    cases takes with
    | nil => exact absurd rfl h
    | cons a ts => rfl
  · intro t ht
    cases takes with
    | nil => cases ht
    | cons a ts =>
      rcases List.mem_cons.mp ht with rfl | h2
      · exact ⟨foldl_min_le_init _ _, init_le_foldl_max _ _⟩
      · constructor
        · exact foldl_min_le_mem _ _ _ (List.mem_map_of_mem (fun u => u.startFrame) h2)
        · exact mem_le_foldl_max _ _ _ (List.mem_map_of_mem (fun u => u.endFrame) h2)

/-- C1 witness: the amended statement at the two-take list. -/
theorem bakeAnimation_per_take_and_union_witness :
    bakeAnimationPasses (some demoTakes)
        = demoTakes.map (fun t => (t.startFrame, t.endFrame)) ∧
    ∀ t ∈ demoTakes, (exportFBXWindow demoTakes).1 ≤ t.startFrame ∧
      t.endFrame ≤ (exportFBXWindow demoTakes).2 :=
  bakeAnimation_per_take_and_union demoTakes (by decide)

/-- Helper: writing back the element a list already holds at an index
leaves the list unchanged. -/
theorem list_set_self {α : Type} (l : List α) (i : Nat) (t : α)
    (h : l.get? i = some t) : l.set i t = l := by
  induction l generalizing i with
  | nil => cases h
  | cons a as ih =>
    cases i with
    | zero =>
      cases h
      rfl
    | succ n =>
      have := ih (i := n) h
      simp [List.set, this]

/-- Helper: the existing-take update loop is the identity on the stored
take. -/
theorem updateExistingTake_id (t : AnimationTake) (p : ClipPayload) :
    updateExistingTake t p = t := by
  unfold updateExistingTake
  split <;> split <;> split <;> rfl

/-- C9: updating a clip that already exists in the stored take list with
an enabled payload leaves the stored list — its startFrame and endFrame
values included — unchanged, whatever frames the payload carries: the
update loop writes each stored field back to itself. -/
theorem updateClipData_existing_noop (animData : List AnimationTake)
    (p : ClipPayload) (hen : p.enabled = true)
    (hfound : (animData.findIdx? (fun t => t.name = p.name)).isSome = true) :
    updateClipData animData p = animData := by
  unfold updateClipData
  cases hidx : animData.findIdx? (fun t => t.name = p.name) with
  | none => rw [hidx] at hfound; cases hfound
  | some i =>
    simp only [hen]
    cases hget : animData.get? i with
    | none => simp
    | some t =>
      simp only [updateExistingTake_id]
      simp [list_set_self animData i t hget]

/-- C9 witness: an enabled payload for the stored idle take with new
frame values 5 and 9 leaves the stored 1-2 range in place. -/
theorem updateClipData_existing_noop_witness :
    updateClipData [⟨"idle", 1, 2⟩] ⟨"idle", true, 5, 9⟩ = [⟨"idle", 1, 2⟩] :=
  updateClipData_existing_noop [⟨"idle", 1, 2⟩] ⟨"idle", true, 5, 9⟩ rfl (by decide)

/-- The idle clip row after the user enables it and drags its end frame
to 3: the capacity stays frozen at the table duration 2. -/
def idleOverCapacity : ClipState :=
  { mkClipWidget "idle" 1 2 with enabled := true, endFrame := 3 }

/-- C8: the per-take capacity check is off by one against the claim and
against the widget's own over-capacity display.  The enabled idle take
1-3 has frame span endFrame - startFrame + 1 = 3, exceeding the idle
capacity 2 — the widget paints it red — yet check compares
endFrame - startFrame = 2 against the capacity and passes the take. -/
theorem animationWidgetCheck_offByOne :
    clipSize idleOverCapacity = 3 ∧
    idleOverCapacity.maxClipSize = 2 ∧
    clipOverCapacityFlag idleOverCapacity = true ∧
    animationWidgetCheck (fun _ _ => true) [idleOverCapacity] = true := by
  refine ⟨by decide, by decide, by decide, by decide⟩

/-- Helper: when every listed material's texture (if any) resolves to a
nonempty path, the KMAT loop emits exactly one entry per material, in
order, named after it. -/
theorem kmatMaterials_names (sc : ShadingScene) (b ct : String)
    (mats : List String)
    (h : ∀ m ∈ mats, ∀ tex, sc.materialTexture m = some tex →
        ∃ p, sc.textureFilePath tex = some p ∧ p ≠ "") :
    (kmatMaterials sc b ct mats).map KmatEntry.name = mats := by
  induction mats with
  | nil => rfl
  | cons mat rest ih =>
    have hrest : ∀ m ∈ rest, ∀ tex, sc.materialTexture m = some tex →
        ∃ p, sc.textureFilePath tex = some p ∧ p ≠ "" :=
      fun m hm => h m (List.mem_cons_of_mem _ hm)
    unfold kmatMaterials
    cases htex : sc.materialTexture mat with
    | none => simp [ih hrest]
    | some tex =>
      obtain ⟨p, hp, hne⟩ := h mat (List.mem_cons_self mat rest) tex htex
      simp [hp, hne, ih hrest]

/-- A scene with one mesh whose single supported lambert material has a
file texture carrying an empty stored path. -/
def emptyPathScene : ShadingScene :=
  { meshes := ["mesh1"],
    meshEngineMaterials := fun m => if m = "mesh1" then [["mat1"]] else [],
    materialType := fun _ => "lambert",
    materialTexture := fun m => if m = "mat1" then some "tex1" else none,
    textureFilePath := fun _ => some "",
    materialColor := fun _ => (1, 1, 1) }

/-- C3 counterexample: in emptyPathScene one mesh references one distinct
supported material (M = 1), yet the written manifest is empty, because
the KMAT loop skips a textured material whose stored texture path is
empty — so a manifest with exactly M entries is not produced by every
export. -/
theorem manifest_count_counterexample :
    distinctSupportedCount emptyPathScene = 1 ∧
    exportIconComponentManifest emptyPathScene "Icon" "Model" = [] := by
  refine ⟨by decide, by decide⟩

/-- C3 amended: whenever every referenced supported material's texture
(if it has one) stores a nonempty file path, the manifest holds exactly
one entry per distinct supported material — M entries for M distinct
materials however many meshes share them — the entries are named by
their materials (so unique per material), and deduplication of the
accumulated material list is idempotent. -/
theorem exportIconComponentManifest_count (sc : ShadingScene)
    (b ct : String)
    (h : ∀ m ∈ dedupMaterials (getMaterialsForMeshes sc sc.meshes).1,
        ∀ tex, sc.materialTexture m = some tex →
          ∃ p, sc.textureFilePath tex = some p ∧ p ≠ "") :
    (exportIconComponentManifest sc b ct).length = distinctSupportedCount sc ∧
    (exportIconComponentManifest sc b ct).map KmatEntry.name
        = dedupMaterials (getMaterialsForMeshes sc sc.meshes).1 ∧
    ((exportIconComponentManifest sc b ct).map KmatEntry.name).Nodup ∧
    (∀ mats : List String, dedupMaterials (dedupMaterials mats) = dedupMaterials mats) := by
  have hnames := kmatMaterials_names sc b ct
    (dedupMaterials (getMaterialsForMeshes sc sc.meshes).1) h
  refine ⟨?_, hnames, ?_, ?_⟩
  · have := congrArg List.length hnames
    simpa [distinctSupportedCount, exportIconComponentManifest] using this
  · have h2 : (exportIconComponentManifest sc b ct).map KmatEntry.name
        = dedupMaterials (getMaterialsForMeshes sc sc.meshes).1 := hnames
    rw [h2]
    exact List.nodup_dedup _
  · intro mats
    exact List.dedup_idem

/-- C3 witness: two meshes sharing one textured material with a real
path produce exactly one uniquely-named manifest entry. -/
def sharedMaterialScene : ShadingScene :=
  { meshes := ["meshA", "meshB"],
    meshEngineMaterials := fun m =>
      if m = "meshA" then [["matShared"]]
      else if m = "meshB" then [["matShared"]] else [],
    materialType := fun _ => "blinn",
    materialTexture := fun m => if m = "matShared" then some "texS" else none,
    textureFilePath := fun t => if t = "texS" then some "/tex/color.png" else none,
    materialColor := fun _ => (1, 1, 1) }

/-- C3 witness statement: the amended theorem applied to the
shared-material scene. -/
theorem exportIconComponentManifest_count_witness :
    (exportIconComponentManifest sharedMaterialScene "Icon" "Model").length
        = distinctSupportedCount sharedMaterialScene ∧
    (exportIconComponentManifest sharedMaterialScene "Icon" "Model").map KmatEntry.name
        = dedupMaterials (getMaterialsForMeshes sharedMaterialScene sharedMaterialScene.meshes).1 ∧
    ((exportIconComponentManifest sharedMaterialScene "Icon" "Model").map KmatEntry.name).Nodup ∧
    (∀ mats : List String, dedupMaterials (dedupMaterials mats) = dedupMaterials mats) :=
  exportIconComponentManifest_count sharedMaterialScene "Icon" "Model" (by decide)

/-- Helper: abspath of anything against a nonempty working directory is
nonempty. -/
theorem pyAbspath_ne_empty (cwd s : String) (h : cwd ≠ "") :
    pyAbspath cwd s ≠ "" := by
  unfold pyAbspath
  split
  · exact h
  · rename_i c cs hs
    split
    · intro heq
      rw [heq] at hs
      have hemp : ("" : String).toList = [] := rfl
      rw [hemp] at hs
      cases hs
    · intro heq
      have hlen := congrArg String.length heq
      simp [String.length_append] at hlen
      exact absurd hlen.1.2 (by decide)

/-- The concrete run refuting the original orchestration claim: output
path set, scene saved, temp scene fine, Model export completed and then
the Portal component's export raised, validator exits zero. -/
def portalRaiseEnv : BuildEnv :=
  { sceneName := "scene.ma", cwd := "/work", outputPath := some "/out",
    saveRaises := false, tempSceneSetupRaises := false,
    exportBodyOutcome := ExportBodyOutcome.raisedAfterModelExport,
    sceneReopenRaises := false, validatorExitZero := true,
    validatorOutput := "" }

/-- As portalRaiseEnv, but the body raised before the Model component's
export had returned, so exportIcon reports False. -/
def earlyRaiseEnv : BuildEnv :=
  { portalRaiseEnv with
    exportBodyOutcome := ExportBodyOutcome.raisedBeforeModelExport }

/-- C4 counterexample: the export of both components did not succeed —
the Portal pass raised — yet openTempScene's except-around-yield
suppresses the exception, exportIcon returns True (the Model pass had
completed), the Validator stage runs, and the build reports success.
With the raise landing before the Model export, exportIcon even returns
False and the validator still runs and makes the build report True.  So
the Validated state is not entered only from the Exported state, and an
exception during the export sequence does not force a False build. -/
theorem buildIcon_counterexample :
    portalRaiseEnv.exportBodyOutcome = ExportBodyOutcome.raisedAfterModelExport ∧
    exportIcon portalRaiseEnv = .ok true ∧
    buildIcon portalRaiseEnv true true = (true, true) ∧
    exportIcon earlyRaiseEnv = .ok false ∧
    buildIcon earlyRaiseEnv true true = (true, true) :=
  ⟨rfl, rfl, rfl, rfl, rfl⟩

/-- C4 amended: exceptions raised outside the temp-scene body — the
initial scene save, a missing outputPath, openTempScene's setup before
its yield, or the reopen in its finally — make the build report failure
without the validator running, and an exception raised by the validate
step makes the build report failure; but an exception raised inside the
temp-scene export body is suppressed by openTempScene, exportIcon
returns normally (False when the raise preceded the Model export's
return, True otherwise), and when validation is requested the Validator
stage runs whenever exportIcon returns normally — whatever its boolean
result — and the validator's verdict alone becomes the build result. -/
theorem buildIcon_validator_overwrites (env : BuildEnv) (validate cleanup : Bool) :
    (∀ e, exportIcon env = .error e → buildIcon env validate cleanup = (false, false)) ∧
    (∀ r, exportIcon env = .ok r → (buildIcon env true cleanup).2 = true) ∧
    (∀ r v, exportIcon env = .ok r → validateIcon env = .ok v →
      buildIcon env true cleanup = (v, true)) ∧
    (∀ e, validateIcon env = .error e → (buildIcon env true cleanup).1 = false) ∧
    (∀ p, env.outputPath = some p → env.saveRaises = false →
      env.tempSceneSetupRaises = false → env.sceneReopenRaises = false →
      env.cwd ≠ "" →
      exportIcon env
        = .ok (env.exportBodyOutcome ≠ ExportBodyOutcome.raisedBeforeModelExport)) := by
  refine ⟨?_, ?_, ?_, ?_, ?_⟩
  · intro e hexp
    simp [buildIcon, hexp]
  · intro r hexp
    simp [buildIcon, hexp]
    cases hval : validateIcon env with
    | error e => simp
    | ok v => simp
  · intro r v hexp hval
    simp [buildIcon, hexp, hval]
  · intro e hval
    cases hexp : exportIcon env with
    | error e2 => simp [buildIcon, hexp]
    | ok r => simp [buildIcon, hexp, hval]
  · intro p hp hs ht hr hcwd
    unfold exportIcon
    rw [if_neg (pyAbspath_ne_empty env.cwd env.sceneName hcwd), hp, hs, ht, hr]
    cases hb : env.exportBodyOutcome <;> simp [hb]

/-- C4 witness: the amended facts exercised at a healthy environment —
export ok and validator ok give a True build with the validator run. -/
theorem buildIcon_validator_overwrites_witness :
    buildIcon ⟨"scene.ma", "/work", some "/out", false, false,
        ExportBodyOutcome.completed, false, true, ""⟩ true true = (true, true) :=
  (buildIcon_validator_overwrites ⟨"scene.ma", "/work", some "/out", false, false,
      ExportBodyOutcome.completed, false, true, ""⟩ true true).2.2.1
    true true rfl rfl

/-- C5: the bundle walk includes exactly the files whose extension is in
the fixed allow-list, each under parent-directory/file-name, and the
sample component directory contributes exactly its kmat, fbx and png
files. -/
theorem createIconZip_spec (files : List WalkFile) :
    (∀ f ∈ files, splitextExt f.fileName ∈ ZIP_EXTENSIONS →
      zipEntryName f ∈ createIconZipEntries files) ∧
    (∀ e ∈ createIconZipEntries files, ∃ f ∈ files,
      splitextExt f.fileName ∈ ZIP_EXTENSIONS ∧ e = zipEntryName f) ∧
    createIconZipEntries
        [⟨"Model", "a.kmat"⟩, ⟨"Model", "a.fbx"⟩,
         ⟨"Model", "tex.png"⟩, ⟨"Model", "notes.txt"⟩]
      = ["Model/a.kmat", "Model/a.fbx", "Model/tex.png"] := by
  refine ⟨?_, ?_, by decide⟩
  · intro f hf hext
    unfold createIconZipEntries
    exact List.mem_map_of_mem zipEntryName
      (List.mem_filter.mpr ⟨hf, by simpa using hext⟩)
  · intro e he
    unfold createIconZipEntries at he
    obtain ⟨f, hf, hfe⟩ := List.mem_map.mp he
    have hmem := List.mem_filter.mp hf
    exact ⟨f, hmem.1, by simpa using hmem.2, hfe.symm⟩

/-- C5 witness: the general inclusion direction at the sample directory. -/
theorem createIconZip_spec_witness :
    zipEntryName ⟨"Model", "a.kmat"⟩ ∈ createIconZipEntries
      [⟨"Model", "a.kmat"⟩, ⟨"Model", "notes.txt"⟩] :=
  (createIconZip_spec [⟨"Model", "a.kmat"⟩, ⟨"Model", "notes.txt"⟩]).1
    ⟨"Model", "a.kmat"⟩ (by decide) (by decide)

/-- C6: baking a plain transform node (not a joint, not mesh-bearing)
leaves its local transform at the identity and preserves every immediate
child's world transform exactly — hence within any floating-point
tolerance. -/
theorem bakeTransformsNode_spec {G : Type} [Group G] (n : BakeNode G)
    (hj : n.isJoint = false) (hm : n.hasMesh = false) :
    (bakeTransformsNode n).localXf = 1 ∧
    childWorlds (bakeTransformsNode n) = childWorlds n := by
  unfold bakeTransformsNode
  rw [if_neg (by simp [hj]), if_neg (by simp [hm])]
  refine ⟨rfl, ?_⟩
  unfold childWorlds worldOf reparentLocal
  simp only [List.map_map]
  apply List.map_congr_left
  intro cl _
  simp [Function.comp]

/-- A concrete transform node over the group Multiplicative Int. -/
def bakeWitnessNode : BakeNode (Multiplicative ℤ) :=
  { isJoint := false, hasMesh := false,
    parentWorld := Multiplicative.ofAdd 2,
    localXf := Multiplicative.ofAdd 5,
    childLocals := [Multiplicative.ofAdd 3, Multiplicative.ofAdd (-1)] }

/-- C6 witness: the bake identities at the concrete node. -/
theorem bakeTransformsNode_spec_witness :
    (bakeTransformsNode bakeWitnessNode).localXf = 1 ∧
    childWorlds (bakeTransformsNode bakeWitnessNode) = childWorlds bakeWitnessNode :=
  bakeTransformsNode_spec bakeWitnessNode rfl rfl

end IconCreation
